import Mathlib

/-!
Verification development for the agent-messaging and material-transfer core
of the cyclus fuel-cycle simulator.

Sources embedded here:
* `src/src/Models/Facility/RecipeReactor.cpp` — the reference facility
  (`handleTick`, `handleTock`, `sendMaterial`, `receiveMaterial`,
  `receiveMessage`, `checkInventory`, `checkStocks`);
* `src/src/Utility/Env.cpp` — `Env::checkEnv`;
* `src/unnamed/part_000` (`Message.h`) — the Message/Transaction declarations.
  `Message.cpp` is not part of the sources, so the message state machine is
  modelled from the specification (§4.1), as marked on each definition.

Masses (C++ `double` / `Mass`) are embedded as `ℚ`; agent ids as `ℕ`.
Material objects carry only their conserved scalar mass, which is the
only attribute the embedded routines inspect (`getTotMass`, `absorb`,
`extractMass`).
-/

namespace Cyclus

/-! ## RecipeReactor data model (from `RecipeReactor.cpp` / `Message.h`) -/

/-- The `Transaction` struct of `Message.h`: commodity, signed amount,
minimum amount, price, and the supplier/requester endpoints (embedded as
integer ids, the code addresses them through `getSupplierID` /
`getRequesterID`). The resource payload is not inspected by any embedded
routine and is omitted. -/
structure Transaction where
  commod : String
  amount : ℚ
  minAmt : ℚ
  price : ℚ
  supplierID : ℕ
  requesterID : ℕ
deriving DecidableEq, Repr

/-- The state of a `RecipeReactor` facility: its serial number (`getSN`),
the two commodities, `inventory_size` (the inventory cap), `capacity`
(monthly capacity), and the three deques. A deque's front is the head of
the list. Materials are represented by their total mass. -/
structure RecipeReactor where
  sn : ℕ
  in_commod : String
  out_commod : String
  inventory_size : ℚ
  capacity : ℚ
  inventory : List ℚ
  stocks : List ℚ
  ordersWaiting : List Transaction
deriving DecidableEq, Repr

/-- Embeds `RecipeReactor::checkInventory`: sum of the masses in `inventory`. -/
def checkInventory (r : RecipeReactor) : ℚ := r.inventory.sum

/-- Embeds `RecipeReactor::checkStocks`: sum of the masses in `stocks`. -/
def checkStocks (r : RecipeReactor) : ℚ := r.stocks.sum

/-- A message emitted during `handleTick`: the constructor arguments
`Message(up, commod, amount, minAmt, price, this, recipient)` that the
claims inspect. -/
structure TickMsg where
  commod : String
  amount : ℚ
  minAmt : ℚ
  price : ℚ
deriving DecidableEq, Repr

/-- Embeds `RecipeReactor::handleTick`: returns the list of request messages sent
up (empty or a singleton) and the offer message. Mirrors the three-way
branch on `space = inventory_size - inv - sto` and the offer computation
`min(inv + capacity, inventory_size)`. -/
def handleTick (r : RecipeReactor) : List TickMsg × TickMsg :=
  let inv := checkInventory r
  let sto := checkStocks r
  let space := r.inventory_size - inv - sto
  let requests : List TickMsg :=
    if space = 0 then
      []
    else if space < r.capacity then
      [⟨r.in_commod, -space, 0, 0⟩]
    else
      [⟨r.in_commod, -(r.capacity - sto), 0, 0⟩]
  let possInv := inv + r.capacity
  let offer_amt := if possInv < r.inventory_size then possInv else r.inventory_size
  (requests, ⟨r.out_commod, offer_amt, 0, 0⟩)

/-- Embeds `RecipeReactor::receiveMessage`: if the transaction's supplier id is
this facility's serial number, push the order onto the FRONT of
`ordersWaiting`; otherwise throw ("RecipeReactor is not the supplier of
this msg."). -/
def receiveMessage (r : RecipeReactor) (t : Transaction) :
    Except String RecipeReactor :=
  if t.supplierID = r.sn then
    .ok { r with ordersWaiting := t :: r.ordersWaiting }
  else
    .error ("NotSupplier")

/-- The split-or-take loop shared by `RecipeReactor::sendMaterial` (over
`inventory`) and the processing loop of `RecipeReactor::handleTock` (over
`stocks`): while the remaining need is positive and the deque is
non-empty, take the front material whole when its mass does not exceed
the remaining need, otherwise `extractMass` exactly the remaining need
from it (leaving the depleted front in place). Returns the manifest of
materials pulled (in order) and the remaining deque. -/
def sendLoop (need : ℚ) (inv : List ℚ) : List ℚ × List ℚ :=
  match inv with
  | [] => ([], [])
  | m :: rest =>
    if need ≤ 0 then ([], m :: rest)
    else if m ≤ need then
      let p := sendLoop (need - m) rest
      (m :: p.1, p.2)
    else
      ([need], (m - need) :: rest)

/-- Embeds `RecipeReactor::sendMaterial`: throws when the transaction's commodity
differs from `out_commod`; otherwise pulls materials off the front of
`inventory` by the split-or-take loop and delivers the manifest to the
requester. Returns the manifest and the updated facility. -/
def sendMaterial (r : RecipeReactor) (t : Transaction) :
    Except String (List ℚ × RecipeReactor) :=
  if t.commod = r.out_commod then
    let p := sendLoop t.amount r.inventory
    .ok (p.1, { r with inventory := p.2 })
  else
    .error ("CommodityMismatch")

/-- Embeds `RecipeReactor::receiveMaterial`: push each material of the manifest
onto the BACK of `stocks`, in arrival order. -/
def receiveMaterial (r : RecipeReactor) (manifest : List ℚ) : RecipeReactor :=
  { r with stocks := r.stocks ++ manifest }

/-- The order-fulfillment loop of `RecipeReactor::handleTock`: drain the
orders front to back, calling `sendMaterial` for each and recording
`(requesterID, manifest)` shipment events in ship order. -/
def fulfillOrders (r : RecipeReactor) (orders : List Transaction) :
    Except String (RecipeReactor × List (ℕ × List ℚ)) :=
  match orders with
  | [] => .ok (r, [])
  | o :: rest =>
    match sendMaterial r o with
    | .error e => .error e
    | .ok (man, r1) =>
      match fulfillOrders r1 rest with
      | .error e => .error e
      | .ok (r2, shipped) => .ok (r2, (o.requesterID, man) :: shipped)

/-- Embeds `RecipeReactor::handleTock`: first convert stocks into inventory at
the rate the monthly `capacity` allows (the same split-or-take loop,
appending the processed materials to the back of `inventory`), then drain
`ordersWaiting`, shipping each order via `sendMaterial`. Returns the
final state and the shipments in ship order. -/
def handleTock (r : RecipeReactor) :
    Except String (RecipeReactor × List (ℕ × List ℚ)) :=
  let p := sendLoop r.capacity r.stocks
  let r1 : RecipeReactor :=
    { r with stocks := p.2, inventory := r.inventory ++ p.1, ordersWaiting := [] }
  fulfillOrders r1 r.ordersWaiting

/-- Folding `receiveMessage` over a list of incoming orders, in arrival
order. -/
def receiveAll (r : RecipeReactor) (ts : List Transaction) :
    Except String RecipeReactor :=
  match ts with
  | [] => .ok r
  | t :: rest =>
    match receiveMessage r t with
    | .error e => .error e
    | .ok r1 => receiveAll r1 rest

/-! ## Message state machine

`Message.h` declares `sendOn`, `setNextDest` and `reverseDirection` but
`Message.cpp` is not among the sources, so their bodies are modelled from
the specification (§4.1 of the spec, which agrees with the protocol
documented at length in `Message.h`). Agents are integer ids. -/

/-- Direction of a message: UP, DOWN, or terminal DONE (spec §3/§4.1). -/
inductive MsgDir where
  | up
  | down
  | done
deriving DecidableEq, Repr

/-- The error kinds the messaging operations can raise (spec §4.1). -/
inductive MsgErr where
  | NoDestination
  | Circular
  | InvalidRecipient
  | TerminalMessage
deriving DecidableEq, Repr

/-- Modelled from the spec: the Message envelope of `Message.h`
(`Message.cpp` missing) — direction, originator (the sender that created
it), current holder, designated next destination, and the path stack of
agents passed through on the UP leg (head of the list = top of stack).
The transaction payload plays no role in routing and is omitted here. -/
structure Msg where
  dir : MsgDir
  originator : ℕ
  holder : ℕ
  nextDest : Option ℕ
  stack : List ℕ
deriving DecidableEq, Repr

/-- Modelled from the spec: `Message::setNextDest` (`Message.cpp`
missing). Records the next UP hop; calls are ignored (no effect, no
error) when the direction is not UP; fails with `InvalidRecipient` when
the destination equals the current holder. -/
def Msg.setNextDest (m : Msg) (a : ℕ) : Except MsgErr Msg :=
  if m.dir = .up then
    if a = m.holder then .error .InvalidRecipient
    else .ok { m with nextDest := some a }
  else .ok m

/-- Modelled from the spec: `Message::sendOn` (`Message.cpp` missing).
UP: fails with `NoDestination` when `nextDest` is unset and with
`Circular` when it equals the originator; otherwise pushes the current
holder onto the path stack and moves the message to `nextDest`, clearing
it. DOWN: pops the top of the stack, which becomes the new holder and
receiver; when the stack empties the direction becomes DONE (an empty
stack on DOWN transitions to DONE without a delivery). DONE is terminal:
fails with `TerminalMessage`. Returns the updated message and the agent
that received it, if any. -/
def Msg.sendOn (m : Msg) : Except MsgErr (Msg × Option ℕ) :=
  match m.dir with
  | .done => .error .TerminalMessage
  | .up =>
    match m.nextDest with
    | none => .error .NoDestination
    | some d =>
      if d = m.originator then .error .Circular
      else
        .ok ({ m with stack := m.holder :: m.stack,
                      holder := d, nextDest := none }, some d)
  | .down =>
    match m.stack with
    | [] => .ok ({ m with dir := .done }, none)
    | t :: rest =>
      .ok ({ m with holder := t, stack := rest,
                    dir := if rest = [] then .done else .down }, some t)

/-- Modelled from the spec: `Message::reverseDirection` (`Message.cpp`
missing): UP becomes DOWN and DOWN becomes UP; nothing is pushed onto the
stack at flip time. A DONE message stays DONE. -/
def Msg.reverseDirection (m : Msg) : Msg :=
  match m.dir with
  | .up => { m with dir := .down }
  | .down => { m with dir := .up }
  | .done => m

/-- A fresh UP message created by its originator (spec §3: created by the
originator in state UP, empty path stack, no next destination). -/
def Msg.init (orig : ℕ) : Msg :=
  ⟨.up, orig, orig, none, []⟩

/-- Drive a message UP through a list of hops: at each hop the current
holder calls `setNextDest` for the next agent and then `sendOn` (spec
§4.1, outbound routing protocol). -/
def driveUp (m : Msg) (hops : List ℕ) : Except MsgErr Msg :=
  match hops with
  | [] => .ok m
  | a :: rest =>
    match m.setNextDest a with
    | .error e => .error e
    | .ok m1 =>
      match m1.sendOn with
      | .error e => .error e
      | .ok (m2, _) => driveUp m2 rest

/-- Drive a message by repeated `sendOn` calls for at most `fuel` steps,
stopping at DONE, and collect the sequence of agents that receive it. -/
def driveDown (fuel : ℕ) (m : Msg) : Except MsgErr (List ℕ) :=
  match fuel with
  | 0 => .ok []
  | fuel + 1 =>
    if m.dir = .done then .ok []
    else
      match m.sendOn with
      | .error e => .error e
      | .ok (m1, r) =>
        match driveDown fuel m1 with
        | .error e => .error e
        | .ok rs => .ok (r.toList ++ rs)

/-! ## Env (from `Env.cpp`) -/

/-- Outcome of a call to `Env::checkEnv`. -/
inductive CheckEnvResult where
  | ret (s : String)
  | thrown
  | segfault
deriving DecidableEq, Repr

/-- Embeds `Env::checkEnv` over an explicit environment `env : String → Option
String` standing for `getenv`. The C++ condition is
`(strlen(getenv(v)) > 0) && (getenv(v) != NULL)`: `strlen` is applied to
the result of `getenv` BEFORE the null test, and `&&` evaluates left to
right, so when the variable is unset `strlen(NULL)` dereferences a null
pointer — undefined behavior, modelled as `segfault`. When the variable
is set, the string is returned if its length is positive and the
GenException ("Environment variable ... not set.") is thrown otherwise. -/
def checkEnv (env : String → Option String) (varname : String) :
    CheckEnvResult :=
  match env varname with
  | none => .segfault
  | some s => if 0 < s.length then .ret s else .thrown

/-! ## Concrete example states used by witnesses and counterexamples -/

/-- A reactor with serial number 1, inventory cap 20, monthly capacity 10,
one inventory material of mass 5 and one stock material of mass 7
(free space 8, which exceeds `capacity − stocks = 3`). -/
def rrEx : RecipeReactor := ⟨1, "uo2", "fuel", 20, 10, [5], [7], []⟩

/-- The spec's split-resource scenario: inventory `[30, 50]`, ample cap. -/
def rrB : RecipeReactor := ⟨1, "uo2", "fuel", 80, 100, [30, 50], [], []⟩

/-- A reactor exactly at its inventory cap (cap 10, inventory `[10]`). -/
def rrC : RecipeReactor := ⟨2, "uo2", "fuel", 10, 5, [10], [], []⟩

/-- An order naming facility 1 as supplier, requester 2. -/
def txGood : Transaction := ⟨"fuel", 40, 0, 0, 1, 2⟩

/-- An order naming facility 9 as supplier (not facility 1). -/
def txBad : Transaction := ⟨"fuel", 40, 0, 0, 9, 2⟩

/-- A second order naming facility 1 as supplier, requester 3. -/
def txGood2 : Transaction := ⟨"fuel", 10, 0, 0, 1, 3⟩

/-- A reactor whose stocks (mass 20) exceed its monthly capacity (10)
while respecting the inventory cap (30): free space is 10 ≥ capacity, so
`handleTick` takes the `space >= capacity` branch with
`requestAmt = capacity − sto = −10`. -/
def rrPos : RecipeReactor := ⟨1, "uo2", "fuel", 30, 10, [], [20], []⟩

/-! ## Theorems -/

/-- C6: when the environment variable (in particular `CYCLUS_PATH`) is
absent, `checkEnv` does NOT fail with the intended fatal error: the code
applies `strlen` to `getenv`'s result before the null test, so an unset
variable dereferences a null pointer (undefined behavior, modelled as
`segfault`) instead of throwing; when the variable is set to a non-empty
string, that string is returned as the claim states. -/
theorem C6_checkEnv_unset_crashes :
    checkEnv (fun _ => none) "CYCLUS_PATH" = .segfault ∧
    checkEnv (fun v => if v = "CYCLUS_PATH" then some ("/cyclus") else none)
      "CYCLUS_PATH" = .ret ("/cyclus") :=
  ⟨rfl, rfl⟩

/-- C10 counterexample: with the variable unset, `checkEnv` does not
raise its fatal error (it hits undefined behavior instead), refuting
"raises its fatal error not only when the environment variable is unset". -/
theorem C10_counterexample :
    checkEnv (fun _ => none) "PATH_VAR" ≠ .thrown ∧
    checkEnv (fun _ => none) "PATH_VAR" = .segfault :=
  ⟨by decide, rfl⟩

/-- C10 amended: `checkEnv` raises its fatal error exactly when the
variable is set to a string of length zero, and returns a value exactly
when the variable is set to a string of positive length (an unset
variable reaches neither outcome: `strlen(NULL)` is undefined behavior). -/
theorem C10_amended (env : String → Option String) (varname : String) :
    (checkEnv env varname = .thrown ↔
      ∃ s, env varname = some s ∧ s.length = 0) ∧
    (∀ s, checkEnv env varname = .ret s ↔
      env varname = some s ∧ 0 < s.length) := by
  cases h : env varname with
  | none => simp [checkEnv, h]
  | some s =>
    constructor
    · simp only [checkEnv, h]
      split_ifs with hl
      · simp; omega
      · simp; omega
    · intro s'
      simp only [checkEnv, h]
      split_ifs with hl
      · constructor
        · intro hr
          cases hr
          exact ⟨rfl, hl⟩
        · rintro ⟨hs, _⟩
          cases hs
          rfl
      · constructor
        · intro hr
          cases hr
        · rintro ⟨hs, hlen⟩
          cases hs
          exact absurd hlen hl

/-- C10 witness: the amended theorem evaluated at a concrete environment
where the variable is bound to the empty string and at one where it is
bound to a one-character string. -/
theorem C10_witness :
    checkEnv (fun _ => some ("")) "PATH_VAR" = .thrown ∧
    checkEnv (fun _ => some ("x")) "PATH_VAR" = .ret ("x") :=
  ⟨((C10_amended (fun _ => some ("")) "PATH_VAR").1).mpr ⟨"", rfl, rfl⟩,
   ((C10_amended (fun _ => some ("x")) "PATH_VAR").2 ("x")).mpr ⟨rfl, by decide⟩⟩

/-- C8: `receiveMessage` enqueues the order (at the front of
`ordersWaiting`, touching nothing else) exactly when the transaction's
supplier id is this facility's serial number, and otherwise fails with
`NotSupplier` leaving no state behind. -/
theorem C8_receiveMessage (r : RecipeReactor) (t : Transaction) :
    (t.supplierID = r.sn →
      receiveMessage r t = .ok { r with ordersWaiting := t :: r.ordersWaiting }) ∧
    (t.supplierID ≠ r.sn → receiveMessage r t = .error ("NotSupplier")) := by
  constructor <;> intro h <;> simp [receiveMessage, h]

/-- C8 witness: a supplier-matching order is enqueued at the front and a
non-matching order is rejected, at concrete inputs. -/
theorem C8_witness :
    receiveMessage rrEx txGood =
      .ok { rrEx with ordersWaiting := txGood :: rrEx.ordersWaiting } ∧
    receiveMessage rrEx txBad = .error ("NotSupplier") :=
  ⟨(C8_receiveMessage rrEx txGood).1 rfl,
   (C8_receiveMessage rrEx txBad).2 (by decide)⟩

/-- C7 counterexample: `receiveMaterial` appends the manifest to `stocks`
unconditionally, so from a state satisfying the claimed bound
`sum(inventory) + sum(stocks) ≤ inventory_cap` it can produce a state
violating it — `receive_material` does not preserve the bound. -/
theorem C7_counterexample :
    checkInventory rrC + checkStocks rrC ≤ rrC.inventory_size ∧
    ¬ (checkInventory (receiveMaterial rrC [5]) +
        checkStocks (receiveMaterial rrC [5]) ≤
        (receiveMaterial rrC [5]).inventory_size) := by
  constructor <;> norm_num [checkInventory, checkStocks, receiveMaterial, rrC]

/-- C7 amended: `receiveMaterial` performs no cap check — it appends the
manifest unconditionally — and the resulting state satisfies the bound
`sum(inventory) + sum(stocks) ≤ inventory_cap` if and only if the
manifest's total quantity is at most the free space
`inventory_cap − sum(inventory) − sum(stocks)`: any larger manifest
drives the sum above the cap. -/
theorem C7_amended (r : RecipeReactor) (manifest : List ℚ) :
    (checkInventory (receiveMaterial r manifest) +
        checkStocks (receiveMaterial r manifest) ≤
        (receiveMaterial r manifest).inventory_size) ↔
      manifest.sum ≤ r.inventory_size - checkInventory r - checkStocks r := by
  simp only [receiveMaterial, checkInventory, checkStocks, List.sum_append]
  constructor <;> intro h <;> linarith

/-- C7 witness: a manifest of total mass 3 fits the free space 8 of the
example reactor and the bound is preserved, by the right-to-left
direction of the characterization. -/
theorem C7_witness :
    checkInventory (receiveMaterial rrEx [3]) +
      checkStocks (receiveMaterial rrEx [3]) ≤
      (receiveMaterial rrEx [3]).inventory_size :=
  (C7_amended rrEx [3]).mpr (by norm_num [checkInventory, checkStocks, rrEx])

/-- C1 counterexample: at a reactor with cap 20, inventory mass 5, stock
mass 7 and monthly capacity 10, the free space is 8 and `handleTick`
requests magnitude 8, whereas
`min(free_space, monthly_capacity − sum(stocks)) = min 8 3 = 3`: the
claimed formula does not describe the emitted request. -/
theorem C1_counterexample :
    (handleTick rrEx).1.map TickMsg.amount = [-8] ∧
    rrEx.inventory_size - checkInventory rrEx - checkStocks rrEx = 8 ∧
    min (rrEx.inventory_size - checkInventory rrEx - checkStocks rrEx)
      (rrEx.capacity - checkStocks rrEx) = 3 ∧
    (8 : ℚ) ≠ 3 := by
  refine ⟨?_, ?_, ?_, by norm_num⟩ <;>
    norm_num [handleTick, checkInventory, checkStocks, rrEx]

/-- C1 amended: `handleTick` emits no request exactly when the free space
`inventory_cap − sum(inventory) − sum(stocks)` is zero, and otherwise
emits exactly one request of `in_commodity` at price 0 with `min_amount`
0 whose (negated) amount is the free space when the free space is below
`monthly_capacity`, and `monthly_capacity − sum(stocks)` otherwise. -/
theorem C1_amended (r : RecipeReactor) :
    ((handleTick r).1 = [] ↔
      r.inventory_size - checkInventory r - checkStocks r = 0) ∧
    (r.inventory_size - checkInventory r - checkStocks r ≠ 0 →
      (handleTick r).1 =
        [⟨r.in_commod,
          -(if r.inventory_size - checkInventory r - checkStocks r < r.capacity
            then r.inventory_size - checkInventory r - checkStocks r
            else r.capacity - checkStocks r), 0, 0⟩]) := by
  simp only [handleTick]
  constructor
  · split_ifs with h0 h1 <;> simp [h0]
  · intro hne
    split_ifs with h0 h1 <;> first | exact absurd h0 hne | rfl

/-- C1 witness: the amended characterization evaluated at the example
reactor, whose free space 8 is nonzero and below capacity 10, so exactly
one request of magnitude 8 at price 0 with min amount 0 is emitted. -/
theorem C1_witness :
    (handleTick rrEx).1 =
      [⟨rrEx.in_commod,
        -(if rrEx.inventory_size - checkInventory rrEx - checkStocks rrEx <
            rrEx.capacity
          then rrEx.inventory_size - checkInventory rrEx - checkStocks rrEx
          else rrEx.capacity - checkStocks rrEx), 0, 0⟩] :=
  (C1_amended rrEx).2 (by norm_num [checkInventory, checkStocks, rrEx])

/-- C2 counterexample: a physically valid reactor (non-negative masses,
cap bound respected: inventory 0 + stocks 20 ≤ cap 30) whose stocks
exceed the monthly capacity 10 emits a request message with the POSITIVE
amount `−(capacity − sto) = −(10 − 20) = +10` from the
`space >= capacity` branch — not every request `handleTick` emits
carries a negative amount. -/
theorem C2_counterexample :
    (handleTick rrPos).1.map TickMsg.amount = [10] ∧
    ¬ ((10 : ℚ) < 0) ∧
    (∀ x ∈ rrPos.inventory, (0 : ℚ) ≤ x) ∧
    (∀ x ∈ rrPos.stocks, (0 : ℚ) ≤ x) ∧
    checkInventory rrPos + checkStocks rrPos ≤ rrPos.inventory_size := by
  refine ⟨?_, by norm_num, ?_, ?_, ?_⟩ <;>
    norm_num [handleTick, checkInventory, checkStocks, rrPos]

/-- C2 amended: request messages `handleTick` emits carry
`amount = −requestAmt`; given non-negative masses and the inventory-cap
bound, every emitted request carries a negative amount except a request
from the `free_space ≥ monthly_capacity` branch when the stocks have
reached or exceeded the monthly capacity, whose amount
`−(monthly_capacity − sum(stocks))` is then zero or positive; the offer
message always carries a non-negative amount (for a non-negative
configured monthly capacity). -/
theorem C2_amended (r : RecipeReactor)
    (hinv : ∀ x ∈ r.inventory, 0 ≤ x) (hsto : ∀ x ∈ r.stocks, 0 ≤ x)
    (hcap : checkInventory r + checkStocks r ≤ r.inventory_size)
    (hcappos : 0 ≤ r.capacity) :
    (∀ t ∈ (handleTick r).1,
      t.amount < 0 ∨
      (r.capacity ≤ checkStocks r ∧
        t.amount = -(r.capacity - checkStocks r))) ∧
    0 ≤ ((handleTick r).2).amount := by
  have h0 : 0 ≤ checkInventory r := List.sum_nonneg hinv
  have h1 : 0 ≤ checkStocks r := List.sum_nonneg hsto
  simp only [handleTick]
  constructor
  · intro t ht
    split_ifs at ht with hs hlt
    · simp at ht
    · simp only [List.mem_singleton] at ht
      subst ht
      left
      show -(r.inventory_size - checkInventory r - checkStocks r) < 0
      have hpos : 0 < r.inventory_size - checkInventory r - checkStocks r :=
        lt_of_le_of_ne (by linarith) (Ne.symm hs)
      linarith
    · simp only [List.mem_singleton] at ht
      subst ht
      rcases lt_or_le (checkStocks r) r.capacity with hlt2 | hge
      · left
        show -(r.capacity - checkStocks r) < 0
        linarith
      · right
        exact ⟨hge, rfl⟩
  · split_ifs with h2
    · show 0 ≤ checkInventory r + r.capacity
      linarith
    · show 0 ≤ r.inventory_size
      linarith

/-- C2 witness: at the example reactor (stocks 7 below capacity 10) the
single emitted request has amount −8 < 0 and the offer has
amount 15 ≥ 0. -/
theorem C2_witness :
    (∀ t ∈ (handleTick rrEx).1,
      t.amount < 0 ∨
      (rrEx.capacity ≤ checkStocks rrEx ∧
        t.amount = -(rrEx.capacity - checkStocks rrEx))) ∧
    0 ≤ ((handleTick rrEx).2).amount :=
  C2_amended rrEx
    (by norm_num [rrEx]) (by norm_num [rrEx])
    (by norm_num [checkInventory, checkStocks, rrEx])
    (by norm_num [rrEx])

/-- The split-or-take loop pulls exactly `min need total` mass (for a
non-negative need over non-negative materials) and conserves mass between
the manifest and the remaining deque. -/
theorem sendLoop_sum (inv : List ℚ) :
    ∀ need : ℚ, 0 ≤ need → (∀ x ∈ inv, 0 ≤ x) →
      (sendLoop need inv).1.sum = min need inv.sum ∧
      (sendLoop need inv).1.sum + (sendLoop need inv).2.sum = inv.sum := by
  induction inv with
  | nil =>
    intro need hneed _
    simp [sendLoop, min_eq_right hneed]
  | cons m rest ih =>
    intro need hneed hnn
    have hm : 0 ≤ m := hnn m (List.mem_cons_self m rest)
    have hrest : ∀ x ∈ rest, 0 ≤ x := fun x hx => hnn x (List.mem_cons_of_mem m hx)
    have hrsum : 0 ≤ rest.sum := List.sum_nonneg hrest
    simp only [sendLoop]
    split_ifs with hle hml
    · have : need = 0 := le_antisymm hle hneed
      subst this
      constructor
      · simp [min_eq_left (by linarith : (0 : ℚ) ≤ m + rest.sum), List.sum_cons]
      · simp
    · obtain ⟨ih1, ih2⟩ := ih (need - m) (by linarith) hrest
      constructor
      · simp only [List.sum_cons, ih1]
        rw [← min_add_add_left m (need - m) rest.sum]
        ring_nf
      · simp only [List.sum_cons]
        linarith
    · push_neg at hml
      constructor
      · simp only [List.sum_cons, List.sum_nil]
        rw [min_eq_left (by linarith)]
        ring
      · simp only [List.sum_cons, List.sum_nil]
        ring

/-- C3: when the transaction's commodity matches `out_commodity` (and the
inventory is non-empty, the amount non-negative, and all material masses
non-negative), `sendMaterial` succeeds — partial fulfillment included —
and the delivered manifest, built by the front-to-back split-or-take
loop, has total quantity `min(tx.amount, total inventory)`; the mass
removed from inventory equals the mass delivered. -/
theorem C3_sendMaterial_manifest (r : RecipeReactor) (t : Transaction)
    (hcommod : t.commod = r.out_commod) (hamt : 0 ≤ t.amount)
    (hnn : ∀ x ∈ r.inventory, 0 ≤ x) (_hne : r.inventory ≠ []) :
    ∃ man r1, sendMaterial r t = .ok (man, r1) ∧
      man.sum = min t.amount (checkInventory r) ∧
      man.sum + checkInventory r1 = checkInventory r := by
  obtain ⟨h1, h2⟩ := sendLoop_sum r.inventory t.amount hamt hnn
  refine ⟨(sendLoop t.amount r.inventory).1,
    { r with inventory := (sendLoop t.amount r.inventory).2 }, ?_, h1, h2⟩
  simp [sendMaterial, hcommod]

/-- C3 witness: the spec's split-resource scenario — inventory
`[30, 50]`, request 40 — delivers a manifest of total mass
`min 40 80 = 40`, conserving mass with the remaining inventory. -/
theorem C3_witness :
    ∃ man r1, sendMaterial rrB txGood = .ok (man, r1) ∧
      man.sum = min txGood.amount (checkInventory rrB) ∧
      man.sum + checkInventory r1 = checkInventory rrB :=
  C3_sendMaterial_manifest rrB txGood rfl (by norm_num [txGood])
    (by norm_num [rrB]) (by simp [rrB])

/-- Receiving a sequence of supplier-matching orders pushes each onto the
front of `ordersWaiting`, so the queue ends up holding them in reverse
arrival order (on top of whatever was queued before). -/
theorem receiveAll_reverse (ts : List Transaction) :
    ∀ r : RecipeReactor, (∀ t ∈ ts, t.supplierID = r.sn) →
      receiveAll r ts =
        .ok { r with ordersWaiting := ts.reverse ++ r.ordersWaiting } := by
  induction ts with
  | nil => intro r _; rfl
  | cons t rest ih =>
    intro r hsup
    have ht : t.supplierID = r.sn := hsup t (List.mem_cons_self t rest)
    have hrest : ∀ u ∈ rest, u.supplierID = r.sn :=
      fun u hu => hsup u (List.mem_cons_of_mem t hu)
    simp only [receiveAll, receiveMessage, if_pos ht]
    rw [ih { r with ordersWaiting := t :: r.ordersWaiting } hrest]
    simp

/-- The fulfillment loop of `handleTock` succeeds on any queue of orders
whose commodity matches, shipping them front to back: the shipped
requesters are exactly the queue's requesters in queue order. -/
theorem fulfillOrders_ships_in_order (orders : List Transaction) :
    ∀ r : RecipeReactor, (∀ t ∈ orders, t.commod = r.out_commod) →
      ∃ r2 shipped, fulfillOrders r orders = .ok (r2, shipped) ∧
        shipped.map Prod.fst = orders.map Transaction.requesterID := by
  induction orders with
  | nil => intro r _; exact ⟨r, [], rfl, rfl⟩
  | cons o rest ih =>
    intro r hc
    have ho : o.commod = r.out_commod := hc o (List.mem_cons_self o rest)
    have hrest : ∀ t ∈ rest,
        t.commod = ({ r with inventory := (sendLoop o.amount r.inventory).2 }
          : RecipeReactor).out_commod :=
      fun t ht => hc t (List.mem_cons_of_mem o ht)
    obtain ⟨r2, shipped, hfo, hmap⟩ :=
      ih { r with inventory := (sendLoop o.amount r.inventory).2 } hrest
    refine ⟨r2, (o.requesterID, (sendLoop o.amount r.inventory).1) :: shipped, ?_, ?_⟩
    · simp only [fulfillOrders, sendMaterial, if_pos ho, hfo]
    · simp [hmap]

/-- C9: orders received within one period are fulfilled in reverse order
of arrival — `receiveMessage` pushes onto the front of `ordersWaiting`
and `handleTock` ships from the front, so starting from an empty queue,
receiving the orders `ts` (all naming this facility as supplier, all for
`out_commodity`) and then running `handleTock` ships to the requesters of
`ts` in reverse arrival order. -/
theorem C9_lifo_fulfillment (r : RecipeReactor) (ts : List Transaction)
    (hempty : r.ordersWaiting = [])
    (hsup : ∀ t ∈ ts, t.supplierID = r.sn)
    (hcommod : ∀ t ∈ ts, t.commod = r.out_commod) :
    ∃ r1 r2 shipped, receiveAll r ts = .ok r1 ∧
      handleTock r1 = .ok (r2, shipped) ∧
      shipped.map Prod.fst = (ts.map Transaction.requesterID).reverse := by
  have h1 := receiveAll_reverse ts r hsup
  rw [hempty, List.append_nil] at h1
  set r1 : RecipeReactor := { r with ordersWaiting := ts.reverse } with hr1
  have hc1 : ∀ t ∈ ts.reverse, t.commod =
      ({ r1 with
          stocks := (sendLoop r1.capacity r1.stocks).2,
          inventory := r1.inventory ++ (sendLoop r1.capacity r1.stocks).1,
          ordersWaiting := [] } : RecipeReactor).out_commod :=
    fun t ht => hcommod t (List.mem_reverse.mp ht)
  obtain ⟨r2, shipped, hfo, hmap⟩ :=
    fulfillOrders_ships_in_order ts.reverse _ hc1
  refine ⟨r1, r2, shipped, h1, ?_, ?_⟩
  · simp only [handleTock]
    exact hfo
  · rw [hmap, List.map_reverse]

/-- C9 witness: receiving `txGood` (requester 2) then `txGood2`
(requester 3) and running `handleTock` ships to requester 3 first, then
requester 2 — the reverse of the arrival order. -/
theorem C9_witness :
    ∃ r1 r2 shipped, receiveAll rrEx [txGood, txGood2] = .ok r1 ∧
      handleTock r1 = .ok (r2, shipped) ∧
      shipped.map Prod.fst =
        ([txGood, txGood2].map Transaction.requesterID).reverse :=
  C9_lifo_fulfillment rrEx [txGood, txGood2] rfl
    (by intro t ht; fin_cases ht <;> rfl)
    (by intro t ht; fin_cases ht <;> rfl)

/-- Driving an UP message through a list of hops (each hop distinct from
its predecessor and from the originator) succeeds and leaves the message
held by the last hop with the path stack recording every holder that
forwarded it, most recent on top. -/
theorem driveUp_ok (hops : List ℕ) :
    ∀ m : Msg, m.dir = .up → m.nextDest = none →
      (∀ a ∈ hops, a ≠ m.originator) →
      (m.holder :: hops).Chain' (· ≠ ·) →
      driveUp m hops =
        .ok ⟨.up, m.originator,
             (m.holder :: hops).getLast (List.cons_ne_nil _ _),
             none, ((m.holder :: hops).dropLast).reverse ++ m.stack⟩ := by
  induction hops with
  | nil =>
    intro m hdir hnd _ _
    obtain ⟨dir, orig, hold, nd, st⟩ := m
    simp only at hdir hnd
    subst hdir hnd
    simp [driveUp]
  | cons a rest ih =>
    intro m hdir hnd hno hch
    obtain ⟨hha, hch'⟩ := List.chain'_cons.mp hch
    have ha_orig : a ≠ m.originator := hno a (List.mem_cons_self a rest)
    have hrest_orig : ∀ x ∈ rest, x ≠ m.originator :=
      fun x hx => hno x (List.mem_cons_of_mem a hx)
    have hstep : driveUp m (a :: rest) =
        driveUp ⟨.up, m.originator, a, none, m.holder :: m.stack⟩ rest := by
      simp [driveUp, Msg.setNextDest, Msg.sendOn, hdir, Ne.symm hha, ha_orig]
    rw [hstep, ih ⟨.up, m.originator, a, none, m.holder :: m.stack⟩ rfl rfl
      hrest_orig hch']
    cases rest with
    | nil => simp
    | cons b l =>
      simp [List.getLast_cons, List.dropLast_cons₂]

/-- One successful `sendOn` step inside the fueled DOWN driver. -/
theorem driveDown_step (n : ℕ) (m m1 : Msg) (r : Option ℕ)
    (h : ¬ m.dir = .done) (hs : m.sendOn = .ok (m1, r)) :
    driveDown (n + 1) m =
      match driveDown n m1 with
      | .error e => .error e
      | .ok rs => .ok (r.toList ++ rs) := by
  simp [driveDown, h, hs]

/-- Repeated `sendOn` on a DOWN message pops the whole path stack,
delivering the message to each recorded agent from the top of the stack
downwards, and ends with the message DONE. -/
theorem driveDown_stack (s : List ℕ) :
    ∀ m : Msg, m.dir = .down → m.stack = s →
      driveDown (s.length + 1) m = .ok s := by
  induction s with
  | nil =>
    intro m hdir hst
    simp [driveDown, Msg.sendOn, hdir, hst]
  | cons t rest ih =>
    intro m hdir hst
    obtain ⟨dir, orig, hold, nd, st⟩ := m
    simp only at hdir hst
    subst hdir hst
    cases rest with
    | nil =>
      simp [driveDown, Msg.sendOn]
    | cons b l =>
      have hrec := ih ⟨.down, orig, t, nd, b :: l⟩ rfl rfl
      have h1 : (⟨.down, orig, hold, nd, t :: b :: l⟩ : Msg).sendOn =
          .ok (⟨.down, orig, t, nd, b :: l⟩, some t) := by
        simp [Msg.sendOn]
      have hlen : (t :: b :: l).length + 1 = ((b :: l).length + 1) + 1 := by
        simp
      rw [hlen, driveDown_step ((b :: l).length + 1) _ _ (some t) (by simp) h1,
        hrec]
      rfl

/-- C4: a message created UP, driven through any hop sequence (no hop
equal to the originator, consecutive holders distinct), flipped DOWN
once, and driven to DONE by repeated `sendOn`, is received on the DOWN
leg by exactly the reverse of the sequence of agents it passed through on
the UP leg (the originator and every forwarding hop, i.e. the path
stack). -/
theorem C4_down_retraces_up (orig : ℕ) (hops : List ℕ)
    (hno : ∀ a ∈ hops, a ≠ orig)
    (hch : (orig :: hops).Chain' (· ≠ ·)) :
    ∃ m, driveUp (Msg.init orig) hops = .ok m ∧
      m.stack = ((orig :: hops).dropLast).reverse ∧
      driveDown (m.stack.length + 1) m.reverseDirection =
        .ok ((orig :: hops).dropLast).reverse := by
  have h := driveUp_ok hops (Msg.init orig) rfl rfl hno hch
  simp only [Msg.init, List.append_nil] at h
  exact ⟨_, h, rfl,
    driveDown_stack ((orig :: hops).dropLast).reverse _ rfl rfl⟩

/-- C4 witness: originator 0 sends UP through hops 1, 2, 3; the DOWN leg
delivers to 2, 1, 0 — the reverse of the UP-leg sequence 0, 1, 2. -/
theorem C4_witness :
    ∃ m, driveUp (Msg.init 0) [1, 2, 3] = .ok m ∧
      m.stack = [2, 1, 0] ∧
      driveDown (m.stack.length + 1) m.reverseDirection = .ok [2, 1, 0] :=
  C4_down_retraces_up 0 [1, 2, 3] (by decide)
    (by simp [List.chain'_cons])

/-- C5 counterexample: `sendOn` on an UP message whose `nextDest` is set
(so not the `NoDestination` situation) and whose direction is not DONE
(so not the `TerminalMessage` situation) still raises — the `Circular`
error when `nextDest` equals the originator — refuting "raises an error
in exactly two situations". -/
theorem C5_counterexample :
    (∃ e, Msg.sendOn ⟨.up, 0, 1, some 0, []⟩ = .error e) ∧
    (⟨.up, 0, 1, some 0, []⟩ : Msg).nextDest ≠ none ∧
    (⟨.up, 0, 1, some 0, []⟩ : Msg).dir ≠ .done :=
  ⟨⟨.Circular, rfl⟩, by decide, by decide⟩

/-- C5 amended: `sendOn` raises an error in exactly three situations —
direction UP with `nextDest` unset (`NoDestination`), direction UP with
`nextDest` equal to the originator (`Circular`), and a message that has
completed its round trip and is terminal (`TerminalMessage`); in
particular a second `sendOn` on a message already driven to DONE always
raises `TerminalMessage`. -/
theorem C5_sendOn_errors (m : Msg) :
    ((∃ e, m.sendOn = .error e) ↔
      (m.dir = .up ∧ m.nextDest = none) ∨
      (m.dir = .up ∧ m.nextDest = some m.originator) ∨
      m.dir = .done) ∧
    (m.dir = .done → m.sendOn = .error .TerminalMessage) := by
  obtain ⟨dir, orig, hold, nd, st⟩ := m
  cases dir with
  | up =>
    cases nd with
    | none => simp [Msg.sendOn]
    | some d =>
      by_cases hd : d = orig
      · subst hd
        simp [Msg.sendOn]
      · simp [Msg.sendOn, hd]
  | down =>
    cases st with
    | nil => simp [Msg.sendOn]
    | cons t rest => simp [Msg.sendOn]
  | done => simp [Msg.sendOn]

/-- C5 witness: a DONE message rejects a further `sendOn` with
`TerminalMessage`. -/
theorem C5_witness :
    Msg.sendOn ⟨.done, 0, 0, none, []⟩ = .error .TerminalMessage :=
  (C5_sendOn_errors ⟨.done, 0, 0, none, []⟩).2 rfl

end Cyclus
